import Mathlib

/-!
Verification of the surface-code parity model and the decoder-walkthrough
step counter of `src/components/Diagrams.tsx`.

The `SurfaceCodeDiagram` component keeps two pieces of state: `errors`
(a list of faulted data-qubit ids) and `measurementErrors` (a list of
corrupted stabilizer ids).  Its operations are `toggleError`,
`toggleMeasurementError`, `resetAll`, and the derived value
`activeStabilizers`.  The `TransformerDecoderDiagram` component keeps a
step counter advanced by `nextStep`, `prevStep` and a timed auto-advance.

All definitions below are transcribed from the TypeScript source; machine
numbers are modelled as `Nat` (ids) and `Int` (the step counter, whose
update uses subtraction).
-/

namespace SurfaceCode

/-- The fixed incidence relation of the source, a `Record` mapping each
data-qubit id to the stabilizer ids it participates in.  The source
iterates it with `Object.entries`, so it is embedded as an association
list in the source order. -/
def adjacency : List (Nat × List Nat) :=
  [(0, [0, 1]), (1, [0, 2]), (2, [1, 3]), (3, [2, 3]), (4, [0, 1, 2, 3])]

/-- The stabilizer (check) ids the source filters over: `[0, 1, 2, 3]`. -/
def stabilizerIds : List Nat := [0, 1, 2, 3]

/-- The component state: `errors` (faulted data-qubit ids) and
`measurementErrors` (corrupted stabilizer ids), both plain lists as in the
source (`useState<number[]>([])`). -/
structure SurfaceCodeState where
  errors : List Nat
  measurementErrors : List Nat
deriving DecidableEq, Repr

/-- The initial state: both lists empty (`useState([])`). -/
def initialState : SurfaceCodeState := ⟨[], []⟩

/-- The shared toggle pattern of the source:
`prev.includes(id) ? prev.filter(e => e !== id) : [...prev, id]`. -/
def toggleList (id : Nat) (l : List Nat) : List Nat :=
  if id ∈ l then l.filter (fun e => e ≠ id) else l ++ [id]

/-- `toggleError` from the source: toggles `id` in the `errors` list. -/
def toggleError (id : Nat) (s : SurfaceCodeState) : SurfaceCodeState :=
  { s with errors := toggleList id s.errors }

/-- `toggleMeasurementError` from the source: toggles `id` in the
`measurementErrors` list. -/
def toggleMeasurementError (id : Nat) (s : SurfaceCodeState) : SurfaceCodeState :=
  { s with measurementErrors := toggleList id s.measurementErrors }

/-- `resetAll` from the source: sets both lists to `[]`. -/
def resetAll (_s : SurfaceCodeState) : SurfaceCodeState := ⟨[], []⟩

/-- The `errorCount` loop inside `activeStabilizers`: the number of
`adjacency` entries `(dataId, stabs)` with `errors.includes(dataId)` and
`stabs.includes(stabId)`, i.e. the number of faulted sites incident to
the check `stabId`. -/
def errorCount (errors : List Nat) (stabId : Nat) : Nat :=
  adjacency.countP (fun p => decide (p.1 ∈ errors ∧ stabId ∈ p.2))

/-- `activeStabilizers` from the source: the checks in `[0,1,2,3]` whose
fault parity XOR measurement-corruption flag is true
(`calculatedParity ? !isMeasurementError : isMeasurementError`). -/
def activeStabilizers (s : SurfaceCodeState) : List Nat :=
  stabilizerIds.filter (fun stabId =>
    let calculatedParity := decide (errorCount s.errors stabId % 2 ≠ 0)
    let isMeasurementError := decide (stabId ∈ s.measurementErrors)
    cond calculatedParity (!isMeasurementError) isMeasurementError)

/-- The observable state of the spec's `getState`: the site-fault set,
the check-corruption set and the reporting set, each as the set of
members of the corresponding list. -/
def getState (s : SurfaceCodeState) : Finset Nat × Finset Nat × Finset Nat :=
  (s.errors.toFinset, s.measurementErrors.toFinset, (activeStabilizers s).toFinset)

/-- `incident d c`: some `adjacency` entry has key `d` and lists check
`c`, i.e. site `d` is incident to check `c`. -/
def incident (d c : Nat) : Prop :=
  ∃ p ∈ adjacency, p.1 = d ∧ c ∈ p.2

instance (d c : Nat) : Decidable (incident d c) :=
  List.decidableBEx _ adjacency

/-- The valid site ids: the keys of the incidence relation. -/
def adjacencyKeys : List Nat := adjacency.map (fun p => p.1)

/-- States reachable from the initial empty state by any sequence of
toggles and resets. -/
inductive ReachableState : SurfaceCodeState → Prop where
  | init : ReachableState initialState
  | stepError (id : Nat) (s : SurfaceCodeState) :
      ReachableState s → ReachableState (toggleError id s)
  | stepMeasurement (id : Nat) (s : SurfaceCodeState) :
      ReachableState s → ReachableState (toggleMeasurementError id s)
  | stepReset (s : SurfaceCodeState) :
      ReachableState s → ReachableState (resetAll s)

end SurfaceCode

namespace Decoder

/-- `nextStep` from the source: `setStep(s => (s + 1) % 4)`. -/
def nextStep (s : Int) : Int := (s + 1) % 4

/-- `prevStep` from the source: `setStep(s => (s - 1 + 4) % 4)`. -/
def prevStep (s : Int) : Int := (s - 1 + 4) % 4

/-- The timed auto-advance inside the `useEffect` interval:
`setStep(s => (s + 1) % 4)`. -/
def autoAdvanceStep (s : Int) : Int := (s + 1) % 4

/-- Step values reachable from the initial `useState(0)` by `nextStep`,
`prevStep` and the timed auto-advance. -/
inductive ReachableStep : Int → Prop where
  | init : ReachableStep 0
  | next (s : Int) : ReachableStep s → ReachableStep (nextStep s)
  | prev (s : Int) : ReachableStep s → ReachableStep (prevStep s)
  | auto (s : Int) : ReachableStep s → ReachableStep (autoAdvanceStep s)

end Decoder

namespace SurfaceCode

/-- Membership after a toggle: the toggled id flips, every other id is
unchanged. -/
theorem mem_toggleList (id x : Nat) (l : List Nat) :
    x ∈ toggleList id l ↔ (if x = id then id ∉ l else x ∈ l) := by
  by_cases h : id ∈ l <;> by_cases hx : x = id <;>
    simp [toggleList, h, hx, List.mem_filter]

/-- Toggling the same id twice preserves membership of every id. -/
theorem mem_toggleList_twice (id x : Nat) (l : List Nat) :
    x ∈ toggleList id (toggleList id l) ↔ x ∈ l := by
  by_cases hx : x = id <;> simp [mem_toggleList, hx]

/-- `errorCount` only depends on which adjacency keys are members of the
error list. -/
theorem errorCount_congr (e₁ e₂ : List Nat) (c : Nat)
    (h : ∀ p ∈ adjacency, (p.1 ∈ e₁ ↔ p.1 ∈ e₂)) :
    errorCount e₁ c = errorCount e₂ c := by
  unfold errorCount
  refine List.countP_congr ?_
  intro p hp
  simp only [decide_eq_true_eq]
  exact and_congr_left fun _ => h p hp

/-- `activeStabilizers` only depends on membership of the adjacency keys
in the error list and of the stabilizer ids in the corruption list. -/
theorem activeStabilizers_congr (s t : SurfaceCodeState)
    (he : ∀ p ∈ adjacency, (p.1 ∈ s.errors ↔ p.1 ∈ t.errors))
    (hm : ∀ c ∈ stabilizerIds, (c ∈ s.measurementErrors ↔ c ∈ t.measurementErrors)) :
    activeStabilizers s = activeStabilizers t := by
  unfold activeStabilizers
  refine List.filter_congr ?_
  intro c hc
  have h₁ : errorCount s.errors c = errorCount t.errors c :=
    errorCount_congr s.errors t.errors c he
  have h₂ : decide (c ∈ s.measurementErrors) = decide (c ∈ t.measurementErrors) := by
    rw [decide_eq_decide]
    exact hm c hc
  simp only [h₁, h₂]

/-- Toggling preserves duplicate-freedom of the list. -/
theorem toggleList_nodup (id : Nat) (l : List Nat) (h : l.Nodup) :
    (toggleList id l).Nodup := by
  by_cases hid : id ∈ l
  · simp only [toggleList, if_pos hid]
    exact h.filter _
  · simp only [toggleList, if_neg hid]
    simp [List.nodup_append, h, hid]

/-- With no site faults, every check counts zero faulted incident sites. -/
theorem errorCount_nil (c : Nat) : errorCount [] c = 0 := by
  simp [errorCount, adjacency]

/-- C1: for every state (any lists of faulted sites and corrupted
checks) and every check id, the check is in `activeStabilizers` iff the
number of faulted sites incident to it is odd XOR its corruption flag is
set. -/
theorem mem_activeStabilizers_iff_parity_xor_corruption
    (s : SurfaceCodeState) (c : Nat) (hc : c ∈ stabilizerIds) :
    c ∈ activeStabilizers s ↔
      Xor' (errorCount s.errors c % 2 = 1) (c ∈ s.measurementErrors) := by
  have hmod : (errorCount s.errors c % 2 ≠ 0) ↔ (errorCount s.errors c % 2 = 1) :=
    Nat.mod_two_ne_zero
  by_cases h₁ : errorCount s.errors c % 2 = 1 <;>
    by_cases h₂ : c ∈ s.measurementErrors <;>
      simp [activeStabilizers, List.mem_filter, hc, hmod, h₁, h₂, Xor']

/-- Witness for C1 at the state with site 0 faulted: check 0 reports and
its incident fault count is odd. -/
theorem mem_activeStabilizers_iff_parity_xor_corruption_witness :
    0 ∈ stabilizerIds ∧
      (0 ∈ activeStabilizers ⟨[0], []⟩ ↔
        Xor' (errorCount [0] 0 % 2 = 1) (0 ∈ ([] : List Nat))) :=
  ⟨by decide, mem_activeStabilizers_iff_parity_xor_corruption ⟨[0], []⟩ 0 (by decide)⟩

/-- C2: from every reachable state, `resetAll` yields empty fault and
corruption lists and an empty reporting set. -/
theorem resetAll_clears_reachable_state (s : SurfaceCodeState)
    (_h : ReachableState s) :
    (resetAll s).errors = [] ∧ (resetAll s).measurementErrors = [] ∧
      activeStabilizers (resetAll s) = [] :=
  ⟨rfl, rfl, rfl⟩

/-- Witness for C2 at the initial state. -/
theorem resetAll_clears_reachable_state_witness :
    ReachableState initialState ∧
      ((resetAll initialState).errors = [] ∧
        (resetAll initialState).measurementErrors = [] ∧
        activeStabilizers (resetAll initialState) = []) :=
  ⟨ReachableState.init, resetAll_clears_reachable_state initialState ReachableState.init⟩

/-- C3 counterexample: toggling site 1 twice from the reachable state
with fault list `[1, 2]` does not restore the state as a value: the
list becomes `[2, 1]`, so the resulting state differs from the state
before the first call. -/
theorem toggleError_twice_changes_list_state :
    toggleError 1 (toggleError 1 ⟨[1, 2], []⟩) ≠ (⟨[1, 2], []⟩ : SurfaceCodeState) := by
  decide

/-- C3 amended: toggling the same site twice preserves the observable
state: `getState` (the fault set, the corruption set and the reporting
set) is unchanged, although the fault list's element order may differ. -/
theorem toggleError_twice_preserves_observable_state
    (s : SurfaceCodeState) (id : Nat) :
    getState (toggleError id (toggleError id s)) = getState s := by
  have h₁ : (toggleError id (toggleError id s)).errors.toFinset = s.errors.toFinset := by
    ext x
    simp [toggleError, mem_toggleList_twice]
  have h₃ : activeStabilizers (toggleError id (toggleError id s)) = activeStabilizers s :=
    activeStabilizers_congr _ _
      (fun p _ => by simp [toggleError, mem_toggleList_twice])
      (fun c _ => Iff.rfl)
  simp only [getState, h₁, h₃]
  rfl

/-- C4 counterexample: toggling check 1 twice from the reachable state
with corruption list `[1, 2]` yields corruption list `[2, 1]`, a state
different from the one before the first call. -/
theorem toggleMeasurementError_twice_changes_list_state :
    toggleMeasurementError 1 (toggleMeasurementError 1 ⟨[], [1, 2]⟩) ≠
      (⟨[], [1, 2]⟩ : SurfaceCodeState) := by
  decide

/-- C4 amended: toggling the same check twice preserves the observable
state: `getState` is unchanged, although the corruption list's element
order may differ. -/
theorem toggleMeasurementError_twice_preserves_observable_state
    (s : SurfaceCodeState) (id : Nat) :
    getState (toggleMeasurementError id (toggleMeasurementError id s)) = getState s := by
  have h₂ : (toggleMeasurementError id (toggleMeasurementError id s)).measurementErrors.toFinset
      = s.measurementErrors.toFinset := by
    ext x
    simp [toggleMeasurementError, mem_toggleList_twice]
  have h₃ : activeStabilizers (toggleMeasurementError id (toggleMeasurementError id s))
      = activeStabilizers s :=
    activeStabilizers_congr _ _
      (fun p _ => Iff.rfl)
      (fun c _ => by simp [toggleMeasurementError, mem_toggleList_twice])
  simp only [getState, h₂, h₃]
  rfl

/-- C5: for every check incident to a faulted site, if exactly that one
site is faulted and exactly that check is corrupted, the check does not
report (odd parity XOR corruption = false). -/
theorem faulted_and_corrupted_check_not_reporting (d c : Nat)
    (h : incident d c) :
    c ∉ activeStabilizers ⟨[d], [c]⟩ := by
  obtain ⟨p, hp, hd, hc⟩ := h
  subst hd
  fin_cases hp <;> fin_cases hc <;> decide

/-- Witness for C5: site 0 is incident to check 0, and with site 0
faulted and check 0 corrupted, check 0 does not report. -/
theorem faulted_and_corrupted_check_not_reporting_witness :
    incident 0 0 ∧ 0 ∉ activeStabilizers ⟨[0], [0]⟩ :=
  ⟨by decide, faulted_and_corrupted_check_not_reporting 0 0 (by decide)⟩

/-- C6: with no site faults and exactly one corrupted check (its
corruption list holds exactly that check id among the check universe),
the reporting set is exactly that check. -/
theorem single_corruption_reports_exactly_that_check
    (meas : List Nat) (c : Nat) (hc : c ∈ stabilizerIds)
    (h : ∀ x ∈ stabilizerIds, (x ∈ meas ↔ x = c)) :
    activeStabilizers ⟨[], meas⟩ = [c] := by
  have key : activeStabilizers ⟨[], meas⟩ =
      stabilizerIds.filter (fun x => decide (x = c)) := by
    unfold activeStabilizers
    refine List.filter_congr ?_
    intro x hx
    simp [errorCount_nil, decide_eq_decide]
    exact h x hx
  rw [key]
  fin_cases hc <;> decide

/-- Witness for C6 with corruption list `[2]`: exactly check 2 reports. -/
theorem single_corruption_reports_exactly_that_check_witness :
    (2 ∈ stabilizerIds ∧ ∀ x ∈ stabilizerIds, (x ∈ [2] ↔ x = 2)) ∧
      activeStabilizers ⟨[], [2]⟩ = [2] :=
  ⟨⟨by decide, by decide⟩,
    single_corruption_reports_exactly_that_check [2] 2 (by decide) (by decide)⟩

/-- No site of the fixed incidence relation is incident to exactly one
check: every adjacency entry lists two or four checks. -/
theorem no_unique_incident_check (d c : Nat) :
    ¬ ∀ x, incident d x ↔ x = c := by
  intro h
  obtain ⟨p, hp, hd, _⟩ := (h c).mpr rfl
  subst hd
  fin_cases hp
  · have h₀ := (h 0).mp (by decide)
    have h₁ := (h 1).mp (by decide)
    omega
  · have h₀ := (h 0).mp (by decide)
    have h₂ := (h 2).mp (by decide)
    omega
  · have h₁ := (h 1).mp (by decide)
    have h₃ := (h 3).mp (by decide)
    omega
  · have h₂ := (h 2).mp (by decide)
    have h₃ := (h 3).mp (by decide)
    omega
  · have h₀ := (h 0).mp (by decide)
    have h₁ := (h 1).mp (by decide)
    omega

/-- C7: every site whose set of incident checks is exactly one check
yields, when it alone is faulted with no corruptions, the reporting set
of exactly that check — vacuously, since under the code's fixed
incidence relation no site is incident to exactly one check (each is
incident to two or four). -/
theorem site_with_unique_incident_check_reports_vacuous (d c : Nat) :
    ((∀ x, incident d x ↔ x = c) → activeStabilizers ⟨[d], []⟩ = [c]) ∧
      ¬ ∀ x, incident d x ↔ x = c :=
  ⟨fun h => absurd h (no_unique_incident_check d c), no_unique_incident_check d c⟩

/-- C8 counterexample: toggling the unknown site id 9 (not a key of the
incidence relation) from the initial state changes the observable
state: `getState` gains 9 in its site-fault set, so the toggle is not a
no-op. -/
theorem toggle_unknown_id_changes_observable_state :
    9 ∉ adjacencyKeys ∧
      getState (toggleError 9 initialState) ≠ getState initialState := by
  constructor
  · decide
  · decide

/-- C8 amended: toggling an unknown site or check id leaves the
reporting set (`activeStabilizers`) unchanged, although the raw
fault/corruption lists — and hence the `getState` sets — do record the
unknown id. -/
theorem toggle_unknown_id_preserves_reporting_set
    (s : SurfaceCodeState) (idS idC : Nat)
    (hS : idS ∉ adjacencyKeys) (hC : idC ∉ stabilizerIds) :
    activeStabilizers (toggleError idS s) = activeStabilizers s ∧
      activeStabilizers (toggleMeasurementError idC s) = activeStabilizers s := by
  constructor
  · refine activeStabilizers_congr _ _ ?_ (fun c _ => Iff.rfl)
    intro p hp
    have hne : p.1 ≠ idS := by
      intro e
      exact hS (e ▸ List.mem_map_of_mem (fun q => q.1) hp)
    show p.1 ∈ toggleList idS s.errors ↔ p.1 ∈ s.errors
    rw [mem_toggleList, if_neg hne]
  · refine activeStabilizers_congr _ _ (fun p _ => Iff.rfl) ?_
    intro c hc
    have hne : c ≠ idC := fun e => hC (e ▸ hc)
    show c ∈ toggleList idC s.measurementErrors ↔ c ∈ s.measurementErrors
    rw [mem_toggleList, if_neg hne]

/-- Witness for C8 amended at the initial state with unknown ids 9. -/
theorem toggle_unknown_id_preserves_reporting_set_witness :
    (9 ∉ adjacencyKeys ∧ 9 ∉ stabilizerIds) ∧
      (activeStabilizers (toggleError 9 initialState) = activeStabilizers initialState ∧
        activeStabilizers (toggleMeasurementError 9 initialState) =
          activeStabilizers initialState) :=
  ⟨⟨by decide, by decide⟩,
    toggle_unknown_id_preserves_reporting_set initialState 9 9 (by decide) (by decide)⟩

/-- C10: in every state reachable from the initial empty state by
toggles and resets, the fault list and the corruption list are
duplicate-free, so each contains every id at most once. -/
theorem reachable_state_lists_nodup (s : SurfaceCodeState)
    (h : ReachableState s) :
    s.errors.Nodup ∧ s.measurementErrors.Nodup := by
  induction h with
  | init => exact ⟨List.nodup_nil, List.nodup_nil⟩
  | stepError id t ht ih => exact ⟨toggleList_nodup id t.errors ih.1, ih.2⟩
  | stepMeasurement id t ht ih => exact ⟨ih.1, toggleList_nodup id t.measurementErrors ih.2⟩
  | stepReset t ht ih => exact ⟨List.nodup_nil, List.nodup_nil⟩

/-- Witness for C10 at a reachable state with one toggled site. -/
theorem reachable_state_lists_nodup_witness :
    ReachableState (toggleError 0 initialState) ∧
      ((toggleError 0 initialState).errors.Nodup ∧
        (toggleError 0 initialState).measurementErrors.Nodup) :=
  ⟨ReachableState.stepError 0 initialState ReachableState.init,
    reachable_state_lists_nodup (toggleError 0 initialState)
      (ReachableState.stepError 0 initialState ReachableState.init)⟩

end SurfaceCode

namespace Decoder

/-- C9: the walkthrough step counter is a modulo-4 counter: every step
value reachable from the initial 0 lies in `{0, 1, 2, 3}`; `nextStep`
maps `s` to `(s + 1) % 4`, `prevStep` maps `s` to `(s - 1 + 4) % 4`,
and the timed auto-advance performs the same update as `nextStep`. -/
theorem step_counter_mod_four (s : Int) (h : ReachableStep s) :
    (s = 0 ∨ s = 1 ∨ s = 2 ∨ s = 3) ∧ nextStep s = (s + 1) % 4 ∧
      prevStep s = (s - 1 + 4) % 4 ∧ autoAdvanceStep s = nextStep s := by
  induction h with
  | init => exact ⟨Or.inl rfl, rfl, rfl, rfl⟩
  | next t ht ih =>
    refine ⟨?_, rfl, rfl, rfl⟩
    rcases ih.1 with h | h | h | h <;> subst h <;> decide
  | prev t ht ih =>
    refine ⟨?_, rfl, rfl, rfl⟩
    rcases ih.1 with h | h | h | h <;> subst h <;> decide
  | auto t ht ih =>
    refine ⟨?_, rfl, rfl, rfl⟩
    rcases ih.1 with h | h | h | h <;> subst h <;> decide

/-- Witness for C9 at the initial step value 0. -/
theorem step_counter_mod_four_witness :
    ReachableStep 0 ∧
      (((0 : Int) = 0 ∨ (0 : Int) = 1 ∨ (0 : Int) = 2 ∨ (0 : Int) = 3) ∧
        nextStep 0 = ((0 : Int) + 1) % 4 ∧
        prevStep 0 = ((0 : Int) - 1 + 4) % 4 ∧
        autoAdvanceStep 0 = nextStep 0) :=
  ⟨ReachableStep.init, step_counter_mod_four 0 ReachableStep.init⟩

end Decoder
